import Mathlib

/-!
# Verification of the opening-range-breakout signal pipeline

Shallow embedding of the core of the `option-orb-bot` repository:

* `src/signal_generator.py` — `make_signal`, `get_option_trade`,
  `generate_option_signals`;
* `src/main.py` — `load_sent_log`, `filter_already_sent`, `append_sent_log`
  and the emission part of `run_cycle`;
* `src/fetch_ohlc.py` — `get_opening_range`;
* `src/backtest_opening_range.py` — `get_intraday_move` and the per-row
  scoring of `backtest_intraday`.

Python floats are modelled as exact rationals (`ℚ`), Python strings as Lean
`String`, dictionaries as structures with the dictionary's keys as fields,
CSV files as lists of row structures, and every network fetch
(`yf.download`) as an explicit oracle argument, so that each function is a
pure function of its inputs plus the oracle.
-/

/-- A row of opening-range OHLC data, as consumed by `make_signal`
(`ohlc_row` with keys `symbol, open, high, low, close`). -/
structure OhlcRow where
  symbol : String
  «open» : ℚ
  high : ℚ
  low : ℚ
  close : ℚ
deriving DecidableEq, Repr

/-- The dictionary returned by `make_signal` on the non-`None` path. -/
structure SignalRec where
  symbol : String
  «open» : ℚ
  high : ℚ
  low : ℚ
  close : ℚ
  prev_close : ℚ
  pct_change : ℚ
  signal : String
deriving DecidableEq, Repr

/-- Python's `round` to the nearest integer, ties to even (banker's
rounding), on exact rationals. -/
def roundHalfEven (q : ℚ) : ℤ :=
  let f : ℤ := ⌊q⌋
  if q - f < 1/2 then f
  else if q - f > 1/2 then f + 1
  else if f % 2 = 0 then f else f + 1

/-- Python's `round(q, 2)` on exact rationals. -/
def round2 (q : ℚ) : ℚ := (roundHalfEven (q * 100) : ℚ) / 100

/-- `make_signal` from `src/signal_generator.py`.  The value obtained from
the network by `prev_day_close(symbol)` at call time is passed in as the
`prev_close` argument.  Python's guard `if not prev_close: return None`
fires both when the fetch returned `None` and when it returned `0.0`. -/
def makeSignal (prev_close : Option ℚ) (row : OhlcRow) : Option SignalRec :=
  match prev_close with
  | none => none
  | some p =>
    if p = 0 then none
    else
      let pct_change : ℚ := ((row.close - p) / p) * 100
      let direction : String :=
        if row.close > row.high ∧ pct_change ≥ 2 then "BUY"
        else if row.close < row.low ∧ pct_change ≤ -2 then "SELL"
        else "HOLD"
      some { symbol := row.symbol, «open» := row.«open», high := row.high,
             low := row.low, close := row.close, prev_close := p,
             pct_change := round2 pct_change, signal := direction }

/-- The dictionary built by `get_option_trade`. -/
structure OptionTrade where
  symbol : String
  direction : String
  underlying_price : ℚ
  suggested_action : String
deriving DecidableEq, Repr

/-- `get_option_trade` from `src/signal_generator.py`. -/
def getOptionTrade (symbol direction : String) (close_price : ℚ) : OptionTrade :=
  let strike : ℤ := roundHalfEven (close_price / 50) * 50
  let action : String :=
    if direction = "BUY" then s!"BUY {symbol} CALL near {strike} strike"
    else if direction = "SELL" then s!"BUY {symbol} PUT near {strike} strike"
    else "HOLD"
  { symbol := symbol, direction := direction,
    underlying_price := close_price, suggested_action := action }

/-- A trade dict after `generate_option_signals` has merged in
`pct_change` and `prev_close` via `trade.update`. -/
structure EmittedTrade where
  symbol : String
  direction : String
  underlying_price : ℚ
  suggested_action : String
  pct_change : ℚ
  prev_close : ℚ
deriving DecidableEq, Repr

/-- `generate_option_signals` from `src/signal_generator.py`; `fetch` is
the oracle for the per-symbol `prev_day_close` network call made by
`make_signal`. -/
def generateOptionSignals (fetch : String → Option ℚ) (rows : List OhlcRow) :
    List EmittedTrade :=
  rows.filterMap (fun row =>
    match makeSignal (fetch row.symbol) row with
    | none => none
    | some sig =>
      if sig.signal = "BUY" ∨ sig.signal = "SELL" then
        let t := getOptionTrade sig.symbol sig.signal sig.close
        some { symbol := t.symbol, direction := t.direction,
               underlying_price := t.underlying_price,
               suggested_action := t.suggested_action,
               pct_change := sig.pct_change, prev_close := sig.prev_close }
      else none)

/-! ## `src/main.py` — sent-log deduplication and the emission cycle -/

/-- A candidate signal dict as seen by `filter_already_sent` and
`run_cycle`: only the keys those functions read (`symbol`, `signal`,
`direction`) are modelled; `signal`/`direction` are `Option` because the
dict may lack either key. -/
structure Sig where
  symbol : String
  signal : Option String
  direction : Option String
deriving DecidableEq, Repr

/-- A row of `sent_notifications.csv` (columns `date,symbol,direction,time`). -/
structure SentEntry where
  date : String
  symbol : String
  direction : String
  time : String
deriving DecidableEq, Repr

/-- Python's `str.upper()` (as a per-character map). -/
def upperStr (s : String) : String := ⟨s.data.map Char.toUpper⟩

/-- Python's `str.strip()`: drop leading and trailing whitespace. -/
def stripStr (s : String) : String :=
  ⟨((s.data.dropWhile Char.isWhitespace).reverse.dropWhile Char.isWhitespace).reverse⟩

/-- Python's `.strip().upper()` chain used on symbols and directions. -/
def stripUpper (s : String) : String := upperStr (stripStr s)

/-- Python's `a or b` for a possibly-missing string `a` (falsy on `None`
and on the empty string), as in `s.get("signal") or s.get("direction") or ""`. -/
def pyOrStr (a : Option String) (b : String) : String :=
  match a with
  | none => b
  | some s => if s = "" then b else s

/-- The direction string `run_cycle`/`filter_already_sent` extract from a
candidate: `(s.get("signal") or s.get("direction") or "")`. -/
def getDirection (s : Sig) : String := pyOrStr s.signal (pyOrStr s.direction "")

/-- A dedup key `(date_str, SYMBOL, DIRECTION)`. -/
abbrev SentKey := String × String × String

/-- The key `load_sent_log` builds from one CSV row:
`(str(date).strip(), symbol.strip().upper(), direction.strip().upper())`. -/
def loadedKey (e : SentEntry) : SentKey :=
  (stripStr e.date, stripUpper e.symbol, stripUpper e.direction)

/-- `load_sent_log` from `src/main.py`.  The CSV file is the list `log`;
`today` is `now_date_ist().isoformat()` (dates are modelled as their ISO
strings, so the pandas date comparison is string equality).  Returns the
seen-set together with the file contents after the call, because the
function clears the file (`open(SENT_LOG_FILE, "w").close()`) when no row
carries today's date.  An absent file and an empty file both behave as
`log = []`. -/
def load_sent_log (today : String) (log : List SentEntry) :
    List SentKey × List SentEntry :=
  if log = [] then ([], log)
  else if log.all (fun e => e.date != today) then ([], [])
  else (log.map loadedKey, log)

/-- The key `filter_already_sent` computes for a candidate
(`(today_str, symbol.strip().upper(), direction.strip().upper())`). -/
def candKey (today : String) (s : Sig) : SentKey :=
  (today, stripUpper s.symbol, stripUpper (getDirection s))

/-- `filter_already_sent` from `src/main.py`; `today` models
`now_date_ist().isoformat()`. -/
def filter_already_sent (today : String) (active_signals : List Sig)
    (seen_set : List SentKey) : List Sig :=
  active_signals.filter (fun s => decide (candKey today s ∉ seen_set))

/-- The row `run_cycle` records in the sent log for one newly sent
signal. -/
def toSentEntry (today now_t : String) (s : Sig) : SentEntry :=
  { date := today, symbol := stripUpper s.symbol,
    direction := stripUpper (getDirection s), time := now_t }

/-- `append_sent_log` from `src/main.py`: a pure append to the CSV. -/
def append_sent_log (log entries : List SentEntry) : List SentEntry :=
  log ++ entries

/-- The emission phase of `run_cycle` from `src/main.py`, from the
`load_sent_log()` call onward, with the Telegram send assumed to succeed
(`sent_ok = True`; on failure nothing is appended).  `cands` is the
normalized candidate batch, `log` the sent-log file before the cycle; the
result is the file after the cycle (note that `load_sent_log` may have
cleared it before the append). -/
def run_cycle (today now_t : String) (log : List SentEntry)
    (cands : List Sig) : List SentEntry :=
  let loaded := load_sent_log today log
  let new_signals := filter_already_sent today cands loaded.1
  if new_signals = [] then loaded.2
  else append_sent_log loaded.2 (new_signals.map (toSentEntry today now_t))

/-- Number of sent-log rows with the given raw `(date, symbol, direction)`
fields. -/
def countKey (today sym dir : String) (log : List SentEntry) : Nat :=
  log.countP (fun e => decide (e.date = today ∧ e.symbol = sym ∧ e.direction = dir))

/-- Whether a candidate normalizes to the `(symbol, direction)` pair. -/
def candMatches (sym dir : String) (s : Sig) : Bool :=
  decide (stripUpper s.symbol = sym ∧ stripUpper (getDirection s) = dir)

/-! ## `src/fetch_ohlc.py` — the opening-range builder -/

/-- A one-minute bar, with its wall-clock time-of-day in minutes after
midnight IST (the timezone normalization of `normalize_index_to_ist` is
modelled by the bars carrying IST times directly). -/
structure MinBar where
  time : Nat
  «open» : ℚ
  high : ℚ
  low : ℚ
  close : ℚ
deriving DecidableEq, Repr

/-- The window mask `(Time >= 9:15) & (Time < 9:30)`:
9:15 = 555 and 9:30 = 570 minutes after midnight. -/
def inWindow (b : MinBar) : Bool := decide (555 ≤ b.time) && decide (b.time < 570)

/-- The dict returned by `get_opening_range`. -/
structure OrRow where
  symbol : String
  «open» : ℚ
  high : ℚ
  low : ℚ
  close : ℚ
  ORH : ℚ
  ORL : ℚ
deriving DecidableEq, Repr

/-- `window["High"].max()` over a nonempty window given as head `a` and
tail values `l`. -/
def listMaxFrom (a : ℚ) (l : List ℚ) : ℚ := l.foldl max a

/-- `window["Low"].min()` over a nonempty window given as head `a` and
tail values `l`. -/
def listMinFrom (a : ℚ) (l : List ℚ) : ℚ := l.foldl min a

/-- `get_opening_range` from `src/fetch_ohlc.py`; the `yf.download` result
is the oracle argument `bars` (an empty download and an empty window both
return `None`, exactly as in the source, since filtering an empty list is
empty). -/
def get_opening_range (symbol : String) (bars : List MinBar) : Option OrRow :=
  match bars.filter inWindow with
  | [] => none
  | b :: bs =>
    let o := b.«open»
    let h := listMaxFrom b.high (bs.map MinBar.high)
    let l := listMinFrom b.low (bs.map MinBar.low)
    let c := ((b :: bs).getLast (List.cons_ne_nil b bs)).close
    some { symbol := symbol, «open» := o, high := h, low := l, close := c,
           ORH := h, ORL := l }

/-! ## `src/backtest_opening_range.py` — backtest scoring -/

/-- A five-minute bar of the post-signal path. -/
structure Bar5m where
  «open» : ℚ
  high : ℚ
  low : ℚ
  close : ℚ
deriving DecidableEq, Repr

/-- `get_intraday_move` from `src/backtest_opening_range.py`; the fetched
and time-filtered path `data_after` (bars at or after the trade time) is
the oracle argument.  An empty path returns `None`. -/
def get_intraday_move (direction : String) (data_after : List Bar5m)
    (orh orl : ℚ) : Option ℚ :=
  match data_after with
  | [] => none
  | b :: bs =>
    let entry_open := b.«open»
    let high_after := listMaxFrom b.high (bs.map Bar5m.high)
    let low_after := listMinFrom b.low (bs.map Bar5m.low)
    if direction = "BUY" then
      let e := if high_after > entry_open then high_after else low_after
      some (max e orl)
    else
      let e := if low_after < entry_open then low_after else high_after
      some (min e orh)

/-- The P&L computation of `backtest_intraday`:
`((exit - entry)/entry)*100` for BUY, `((entry - exit)/entry)*100`
otherwise. -/
def pnlPercent (direction : String) (entry exit_price : ℚ) : ℚ :=
  if direction = "BUY" then ((exit_price - entry) / entry) * 100
  else ((entry - exit_price) / entry) * 100

/-- The classification of `backtest_intraday`:
`"WIN" if pnl > 0 else "LOSS"`. -/
def resultLabel (pnl : ℚ) : String := if pnl > 0 then "WIN" else "LOSS"

lemma pct_ge_two_iff (c p : ℚ) (hp : 0 < p) :
    (2 ≤ (c - p) / p * 100) ↔ p * 1.02 ≤ c := by
  rw [div_mul_eq_mul_div, le_div_iff₀ hp]
  constructor <;> intro h <;> nlinarith

lemma pct_le_neg_two_iff (c p : ℚ) (hp : 0 < p) :
    ((c - p) / p * 100 ≤ -2) ↔ c ≤ p * 0.98 := by
  rw [div_mul_eq_mul_div, div_le_iff₀ hp]
  constructor <;> intro h <;> nlinarith

/-- **C1.** For every OHLC row and every present, positive `prev_close`,
`make_signal` returns a record whose direction is `BUY` iff
`close > high` and `close ≥ prev_close * 1.02`, is `SELL` iff
`close < low` and `close ≤ prev_close * 0.98`, and is neither `BUY` nor
`SELL` in every other case (the code's momentum test
`((close - prev_close)/prev_close)*100 ≥ 2`, resp. `≤ -2`, is equivalent
to these product forms because `prev_close > 0`). -/
theorem make_signal_buy_sell_characterization (row : OhlcRow) (p : ℚ)
    (hp : 0 < p) :
    ∃ rec, makeSignal (some p) row = some rec ∧
      (rec.signal = "BUY" ↔ (row.high < row.close ∧ p * 1.02 ≤ row.close)) ∧
      (rec.signal = "SELL" ↔ (row.close < row.low ∧ row.close ≤ p * 0.98)) ∧
      (¬(row.high < row.close ∧ p * 1.02 ≤ row.close) →
        ¬(row.close < row.low ∧ row.close ≤ p * 0.98) →
        rec.signal ≠ "BUY" ∧ rec.signal ≠ "SELL") := by
  have hne : p ≠ 0 := ne_of_gt hp
  have hbuy := pct_ge_two_iff row.close p hp
  have hsell := pct_le_neg_two_iff row.close p hp
  refine ⟨{ symbol := row.symbol, «open» := row.«open», high := row.high,
            low := row.low, close := row.close, prev_close := p,
            pct_change := round2 (((row.close - p) / p) * 100),
            signal :=
              if row.close > row.high ∧ (row.close - p) / p * 100 ≥ 2 then "BUY"
              else if row.close < row.low ∧ (row.close - p) / p * 100 ≤ -2 then "SELL"
              else "HOLD" }, ?_, ?_, ?_, ?_⟩
  · simp only [makeSignal, if_neg hne]
  · show (if row.close > row.high ∧ (row.close - p) / p * 100 ≥ 2 then "BUY"
        else if row.close < row.low ∧ (row.close - p) / p * 100 ≤ -2 then "SELL"
        else "HOLD") = "BUY" ↔ _
    split_ifs with h1 h2
    · exact iff_of_true rfl ⟨h1.1, hbuy.mp h1.2⟩
    · exact iff_of_false (by decide) (fun hc => h1 ⟨hc.1, hbuy.mpr hc.2⟩)
    · exact iff_of_false (by decide) (fun hc => h1 ⟨hc.1, hbuy.mpr hc.2⟩)
  · show (if row.close > row.high ∧ (row.close - p) / p * 100 ≥ 2 then "BUY"
        else if row.close < row.low ∧ (row.close - p) / p * 100 ≤ -2 then "SELL"
        else "HOLD") = "SELL" ↔ _
    split_ifs with h1 h2
    · exact iff_of_false (by decide) (fun hc => by
        have := hsell.mpr hc.2
        have h2 := hbuy.mp h1.2
        have := hc.1
        have := h1.1
        nlinarith)
    · exact iff_of_true rfl ⟨h2.1, hsell.mp h2.2⟩
    · exact iff_of_false (by decide) (fun hc => h2 ⟨hc.1, hsell.mpr hc.2⟩)
  · intro hnb hns
    split_ifs with h1 h2
    · exact absurd ⟨h1.1, hbuy.mp h1.2⟩ hnb
    · exact absurd ⟨h2.1, hsell.mp h2.2⟩ hns
    · exact ⟨by simp, by simp⟩

/-- Witness for C1 at the spec's concrete scenario 1:
snapshot `{open:100, high:105, low:98, close:110, prev_close:95}` yields a
`BUY` record (`110 > 105` and `110 ≥ 95 * 1.02 = 96.9`). -/
theorem make_signal_buy_sell_characterization_witness :
    ∃ rec, makeSignal (some 95) ⟨"X", 100, 105, 98, 110⟩ = some rec ∧
      (rec.signal = "BUY" ↔ ((105 : ℚ) < 110 ∧ (95 : ℚ) * 1.02 ≤ 110)) ∧
      (rec.signal = "SELL" ↔ ((110 : ℚ) < 98 ∧ (110 : ℚ) ≤ 95 * 0.98)) ∧
      (¬((105 : ℚ) < 110 ∧ (95 : ℚ) * 1.02 ≤ 110) →
        ¬((110 : ℚ) < 98 ∧ (110 : ℚ) ≤ 95 * 0.98) →
        rec.signal ≠ "BUY" ∧ rec.signal ≠ "SELL") :=
  make_signal_buy_sell_characterization ⟨"X", 100, 105, 98, 110⟩ 95 (by norm_num)

lemma le_listMaxFrom_self (l : List ℚ) : ∀ a : ℚ, a ≤ listMaxFrom a l := by
  induction l with
  | nil => intro a; exact le_refl a
  | cons x xs ih => intro a; exact le_trans (le_max_left a x) (ih (max a x))

lemma mem_le_listMaxFrom (l : List ℚ) : ∀ a x : ℚ, x ∈ l → x ≤ listMaxFrom a l := by
  induction l with
  | nil => intro a x hx; cases hx
  | cons y ys ih =>
    intro a x hx
    rcases List.mem_cons.mp hx with h | h
    · subst h; exact le_trans (le_max_right a x) (le_listMaxFrom_self ys (max a x))
    · exact ih (max a y) x h

lemma listMaxFrom_eq_or_mem (l : List ℚ) :
    ∀ a : ℚ, listMaxFrom a l = a ∨ listMaxFrom a l ∈ l := by
  induction l with
  | nil => intro a; exact Or.inl rfl
  | cons y ys ih =>
    intro a
    rcases ih (max a y) with h | h
    · rcases max_choice a y with hm | hm
      · exact Or.inl (by rw [show listMaxFrom a (y :: ys) = listMaxFrom (max a y) ys from rfl, h, hm])
      · refine Or.inr (List.mem_cons.mpr (Or.inl ?_))
        rw [show listMaxFrom a (y :: ys) = listMaxFrom (max a y) ys from rfl, h, hm]
    · exact Or.inr (List.mem_cons.mpr (Or.inr h))

lemma listMinFrom_le_self (l : List ℚ) : ∀ a : ℚ, listMinFrom a l ≤ a := by
  induction l with
  | nil => intro a; exact le_refl a
  | cons x xs ih => intro a; exact le_trans (ih (min a x)) (min_le_left a x)

lemma listMinFrom_le_mem (l : List ℚ) : ∀ a x : ℚ, x ∈ l → listMinFrom a l ≤ x := by
  induction l with
  | nil => intro a x hx; cases hx
  | cons y ys ih =>
    intro a x hx
    rcases List.mem_cons.mp hx with h | h
    · subst h; exact le_trans (listMinFrom_le_self ys (min a x)) (min_le_right a x)
    · exact ih (min a y) x h

lemma listMinFrom_eq_or_mem (l : List ℚ) :
    ∀ a : ℚ, listMinFrom a l = a ∨ listMinFrom a l ∈ l := by
  induction l with
  | nil => intro a; exact Or.inl rfl
  | cons y ys ih =>
    intro a
    rcases ih (min a y) with h | h
    · rcases min_choice a y with hm | hm
      · exact Or.inl (by rw [show listMinFrom a (y :: ys) = listMinFrom (min a y) ys from rfl, h, hm])
      · refine Or.inr (List.mem_cons.mpr (Or.inl ?_))
        rw [show listMinFrom a (y :: ys) = listMinFrom (min a y) ys from rfl, h, hm]
    · exact Or.inr (List.mem_cons.mpr (Or.inr h))

/-- **C5.** For every scored trade with positive entry and a defined exit
price, the P&L percent is `(exit - entry)/entry * 100` for BUY and
`(entry - exit)/entry * 100` otherwise, and the label is `WIN` iff the
P&L percent is strictly positive and `LOSS` iff it is `≤ 0` (zero is
classified `LOSS`). -/
theorem backtest_pnl_win_loss (direction : String) (entry exit_price : ℚ)
    (hentry : 0 < entry) :
    (direction = "BUY" →
      pnlPercent direction entry exit_price = (exit_price - entry) / entry * 100) ∧
    (direction ≠ "BUY" →
      pnlPercent direction entry exit_price = (entry - exit_price) / entry * 100) ∧
    (resultLabel (pnlPercent direction entry exit_price) = "WIN" ↔
      0 < pnlPercent direction entry exit_price) ∧
    (resultLabel (pnlPercent direction entry exit_price) = "LOSS" ↔
      pnlPercent direction entry exit_price ≤ 0) := by
  refine ⟨fun h => by simp [pnlPercent, h], fun h => by simp [pnlPercent, h], ?_, ?_⟩
  · unfold resultLabel
    split_ifs with h
    · exact iff_of_true rfl h
    · exact iff_of_false (by decide) h
  · unfold resultLabel
    split_ifs with h
    · exact iff_of_false (by decide) (by linarith)
    · exact iff_of_true rfl (le_of_not_lt h)

/-- Witness for C5: a SELL trade with entry 100 and exit 90 has
P&L `(100 - 90)/100 * 100 = 10` and is a `WIN`. -/
theorem backtest_pnl_win_loss_witness :
    (("SELL" : String) = "BUY" →
      pnlPercent "SELL" 100 90 = ((90 : ℚ) - 100) / 100 * 100) ∧
    (("SELL" : String) ≠ "BUY" →
      pnlPercent "SELL" 100 90 = ((100 : ℚ) - 90) / 100 * 100) ∧
    (resultLabel (pnlPercent "SELL" 100 90) = "WIN" ↔ 0 < pnlPercent "SELL" 100 90) ∧
    (resultLabel (pnlPercent "SELL" 100 90) = "LOSS" ↔ pnlPercent "SELL" 100 90 ≤ 0) :=
  backtest_pnl_win_loss "SELL" 100 90 (by norm_num)

/-- **C6.** On every non-empty post-signal path, the BUY exit is the
running high when it strictly exceeds the entry open and otherwise the
running low, clamped from below by ORL (`max(exit, orl)`), so the
returned exit is never below ORL; mirrored for SELL: the running low when
it is strictly below the entry open, otherwise the running high, clamped
from above by ORH (`min(exit, orh)`), so the returned exit is never above
ORH. -/
theorem get_intraday_move_spec (b : Bar5m) (bs : List Bar5m) (orh orl : ℚ) :
    (get_intraday_move "BUY" (b :: bs) orh orl =
      some (max (if b.«open» < listMaxFrom b.high (bs.map Bar5m.high)
                 then listMaxFrom b.high (bs.map Bar5m.high)
                 else listMinFrom b.low (bs.map Bar5m.low)) orl)) ∧
    orl ≤ max (if b.«open» < listMaxFrom b.high (bs.map Bar5m.high)
               then listMaxFrom b.high (bs.map Bar5m.high)
               else listMinFrom b.low (bs.map Bar5m.low)) orl ∧
    (get_intraday_move "SELL" (b :: bs) orh orl =
      some (min (if listMinFrom b.low (bs.map Bar5m.low) < b.«open»
                 then listMinFrom b.low (bs.map Bar5m.low)
                 else listMaxFrom b.high (bs.map Bar5m.high)) orh)) ∧
    min (if listMinFrom b.low (bs.map Bar5m.low) < b.«open»
         then listMinFrom b.low (bs.map Bar5m.low)
         else listMaxFrom b.high (bs.map Bar5m.high)) orh ≤ orh := by
  refine ⟨?_, le_max_right _ _, ?_, min_le_right _ _⟩
  · simp [get_intraday_move]
  · simp [get_intraday_move]

/-- **C10 counterexample.** The decision of `make_signal` is not a
function of the OHLC row alone: on the same row (same snapshot and same
triggering price), two different call-time results of the
`prev_day_close` network fetch give different decisions (`BUY` with
fetched 100, `HOLD` with fetched 200). -/
theorem make_signal_not_deterministic_in_pair :
    (makeSignal (some 100) ⟨"X", 100, 105, 98, 110⟩).map SignalRec.signal ≠
      (makeSignal (some 200) ⟨"X", 100, 105, 98, 110⟩).map SignalRec.signal := by
  norm_num [makeSignal]
  decide

/-- **C10 (amended).** The evaluator is deterministic once the call-time
fetched `prev_day_close` is fixed: two evaluations of the same row whose
fetches return the same value yield the same result (the decision is a
pure function of the pair together with the fetched previous close, and
of nothing else). -/
theorem make_signal_deterministic_given_fetch (f₁ f₂ : String → Option ℚ)
    (row : OhlcRow) (h : f₁ row.symbol = f₂ row.symbol) :
    makeSignal (f₁ row.symbol) row = makeSignal (f₂ row.symbol) row := by
  rw [h]

/-- Witness for the amended C10 at a concrete row and two extensionally
different fetch oracles agreeing on the row's symbol. -/
theorem make_signal_deterministic_given_fetch_witness :
    makeSignal ((fun _ => some 95) "X") ⟨"X", 100, 105, 98, 110⟩ =
      makeSignal ((fun s => if s = "X" then some 95 else none) "X")
        ⟨"X", 100, 105, 98, 110⟩ :=
  make_signal_deterministic_given_fetch (fun _ => some 95)
    (fun s => if s = "X" then some 95 else none) ⟨"X", 100, 105, 98, 110⟩ (by simp)

/-- **C4.** Loading a sent-log whose rows all carry dates other than today
returns the same seen-set as loading an empty (or absent) sent-log: the
empty set.  (The code notices that no row is dated today, clears the file
and returns `set()`.) -/
theorem load_sent_log_prior_dates_like_empty (today : String)
    (log : List SentEntry) (h : ∀ e ∈ log, e.date ≠ today) :
    (load_sent_log today log).1 = (load_sent_log today ([] : List SentEntry)).1 ∧
    (load_sent_log today log).1 = [] := by
  by_cases hl : log = []
  · subst hl; exact ⟨rfl, rfl⟩
  · have hall : log.all (fun e => e.date != today) = true := by
      rw [List.all_eq_true]
      intro e he
      exact bne_iff_ne.mpr (h e he)
    constructor <;> simp [load_sent_log, hl, hall]

/-- Witness for C4: a log holding only an entry from the prior trading day
2026-10-11 loads, for today 2026-10-12, as the empty seen-set. -/
theorem load_sent_log_prior_dates_like_empty_witness :
    (load_sent_log "2026-10-12" [⟨"2026-10-11", "TCS", "BUY", "10:00:00"⟩]).1 =
      (load_sent_log "2026-10-12" ([] : List SentEntry)).1 ∧
    (load_sent_log "2026-10-12" [⟨"2026-10-11", "TCS", "BUY", "10:00:00"⟩]).1 = [] :=
  load_sent_log_prior_dates_like_empty "2026-10-12"
    [⟨"2026-10-11", "TCS", "BUY", "10:00:00"⟩] (by decide)

/-- **C8 counterexample.** The claim that the returned batch never holds
two entries with the same `(date, symbol, direction)` key fails: the
filter checks each candidate against the seen-set only, so a batch that
itself contains the same candidate twice passes both copies through (here
with an empty seen-set). -/
theorem filter_already_sent_dup_counterexample :
    ¬ (filter_already_sent "2026-10-12"
        [⟨"TCS", some "BUY", none⟩, ⟨"TCS", some "BUY", none⟩] []).Pairwise
        (fun a b => candKey "2026-10-12" a ≠ candKey "2026-10-12" b) := by
  decide

/-- **C8 (amended).** The batch filter returns exactly the candidates
whose `(today, SYMBOL, DIRECTION)` key is not in the seen-set; it does
not deduplicate inside the batch, so the returned batch is free of
same-key pairs whenever the input batch is (but not in general). -/
theorem filter_already_sent_pure_filter (today : String) (cands : List Sig)
    (seen : List SentKey)
    (hnodup : cands.Pairwise (fun a b => candKey today a ≠ candKey today b)) :
    (∀ s, s ∈ filter_already_sent today cands seen ↔
      (s ∈ cands ∧ candKey today s ∉ seen)) ∧
    (filter_already_sent today cands seen).Pairwise
      (fun a b => candKey today a ≠ candKey today b) := by
  constructor
  · intro s
    simp [filter_already_sent, List.mem_filter]
  · exact List.Pairwise.sublist (List.filter_sublist _) hnodup

/-- Witness for the amended C8 on a two-candidate batch with distinct keys
and a seen-set already holding the first candidate's key. -/
theorem filter_already_sent_pure_filter_witness :
    (∀ s, s ∈ filter_already_sent "2026-10-12"
        [⟨"TCS", some "BUY", none⟩, ⟨"INFY", some "SELL", none⟩]
        [("2026-10-12", "TCS", "BUY")] ↔
      (s ∈ [(⟨"TCS", some "BUY", none⟩ : Sig), ⟨"INFY", some "SELL", none⟩] ∧
        candKey "2026-10-12" s ∉ [("2026-10-12", "TCS", "BUY")])) ∧
    (filter_already_sent "2026-10-12"
        [⟨"TCS", some "BUY", none⟩, ⟨"INFY", some "SELL", none⟩]
        [("2026-10-12", "TCS", "BUY")]).Pairwise
      (fun a b => candKey "2026-10-12" a ≠ candKey "2026-10-12" b) :=
  filter_already_sent_pure_filter "2026-10-12"
    [⟨"TCS", some "BUY", none⟩, ⟨"INFY", some "SELL", none⟩]
    [("2026-10-12", "TCS", "BUY")] (by decide)

lemma makeSignal_symbol (p : Option ℚ) (row : OhlcRow) (rec : SignalRec)
    (h : makeSignal p row = some rec) : rec.symbol = row.symbol := by
  cases p with
  | none => simp [makeSignal] at h
  | some q =>
    by_cases hq : q = 0
    · simp [makeSignal, hq] at h
    · simp only [makeSignal, if_neg hq, Option.some.injEq] at h
      rw [← h]

lemma makeSignal_signal_hold (prev : Option ℚ) (row : OhlcRow)
    (hlo : row.low ≤ row.close) (hhi : row.close ≤ row.high) (rec : SignalRec)
    (h : makeSignal prev row = some rec) :
    rec.signal = "HOLD" := by
  cases prev with
  | none => simp [makeSignal] at h
  | some q =>
    by_cases hq : q = 0
    · simp [makeSignal, hq] at h
    · simp only [makeSignal, if_neg hq, Option.some.injEq] at h
      rw [← h]
      have h1 : ¬(row.close > row.high ∧ (row.close - q) / q * 100 ≥ 2) :=
        fun hc => absurd hhi (not_le.mpr hc.1)
      have h2 : ¬(row.close < row.low ∧ (row.close - q) / q * 100 ≤ -2) :=
        fun hc => absurd hlo (not_le.mpr hc.1)
      simp [if_neg h1, if_neg h2]

lemma get_opening_range_nil (symbol : String) (bars : List MinBar)
    (hw : bars.filter inWindow = []) : get_opening_range symbol bars = none := by
  unfold get_opening_range
  rw [hw]

lemma get_opening_range_cons (symbol : String) (bars : List MinBar)
    (b : MinBar) (bs : List MinBar) (hw : bars.filter inWindow = b :: bs) :
    get_opening_range symbol bars =
      some { symbol := symbol, «open» := b.«open»,
             high := listMaxFrom b.high (bs.map MinBar.high),
             low := listMinFrom b.low (bs.map MinBar.low),
             close := ((b :: bs).getLast (List.cons_ne_nil b bs)).close,
             ORH := listMaxFrom b.high (bs.map MinBar.high),
             ORL := listMinFrom b.low (bs.map MinBar.low) } := by
  unfold get_opening_range
  rw [hw]

/-- **C3 (implicit).** Under the range-snapshot invariant
`low ≤ close ≤ high`, `make_signal` can only answer `HOLD` (its `BUY` arm
needs `close > high` and its `SELL` arm `close < low`), so
`generate_option_signals` on any list of invariant-satisfying rows is
empty — and every row `get_opening_range` builds from bars whose own
`low ≤ close ≤ high` satisfies that invariant, so the pipeline as wired
can never emit a trade signal. -/
theorem pipeline_never_emits (prev : Option ℚ) (row : OhlcRow)
    (fetch : String → Option ℚ) (rows : List OhlcRow)
    (symbol : String) (bars : List MinBar)
    (hrow : row.low ≤ row.close ∧ row.close ≤ row.high)
    (hrows : ∀ r ∈ rows, r.low ≤ r.close ∧ r.close ≤ r.high)
    (hbars : ∀ b ∈ bars, b.low ≤ b.close ∧ b.close ≤ b.high) :
    (∀ rec, makeSignal prev row = some rec →
      rec.signal ≠ "BUY" ∧ rec.signal ≠ "SELL") ∧
    generateOptionSignals fetch rows = [] ∧
    (∀ orow, get_opening_range symbol bars = some orow →
      orow.low ≤ orow.close ∧ orow.close ≤ orow.high) := by
  refine ⟨?_, ?_, ?_⟩
  · intro rec h
    have := makeSignal_signal_hold prev row hrow.1 hrow.2 rec h
    rw [this]
    exact ⟨by decide, by decide⟩
  · unfold generateOptionSignals
    rw [List.filterMap_eq_nil_iff]
    intro r hr
    cases hms : makeSignal (fetch r.symbol) r with
    | none => simp
    | some sig =>
      have hh := makeSignal_signal_hold (fetch r.symbol) r (hrows r hr).1
        (hrows r hr).2 sig hms
      simp [hh]
  · intro orow h
    cases hw : bars.filter inWindow with
    | nil => rw [get_opening_range_nil symbol bars hw] at h; cases h
    | cons b bs =>
      rw [get_opening_range_cons symbol bars b bs hw] at h
      have h' := Option.some.inj h
      have hlast : (b :: bs).getLast (List.cons_ne_nil b bs) ∈ b :: bs :=
        List.getLast_mem _
      have hlastbars : (b :: bs).getLast (List.cons_ne_nil b bs) ∈ bars := by
        have hm : (b :: bs).getLast (List.cons_ne_nil b bs) ∈ bars.filter inWindow := by
          rw [hw]; exact hlast
        exact List.mem_of_mem_filter hm
      have hinv := hbars _ hlastbars
      constructor
      · rw [← h']
        refine le_trans ?_ hinv.1
        rcases List.mem_cons.mp hlast with hl | hl
        · rw [hl]
          exact listMinFrom_le_self (bs.map MinBar.low) b.low
        · exact listMinFrom_le_mem (bs.map MinBar.low) b.low _
            (List.mem_map_of_mem MinBar.low hl)
      · rw [← h']
        refine le_trans hinv.2 ?_
        rcases List.mem_cons.mp hlast with hl | hl
        · rw [hl]
          exact le_listMaxFrom_self (bs.map MinBar.high) b.high
        · exact mem_le_listMaxFrom (bs.map MinBar.high) b.high _
            (List.mem_map_of_mem MinBar.high hl)

/-- Witness for C3 at the spec's concrete scenario 2: the in-range row
`{open:100, high:105, low:98, close:104}` (with fetched prev_close 95)
yields no signal, the one-row batch emits nothing, and the opening range
built from one well-formed bar satisfies the invariant. -/
theorem pipeline_never_emits_witness :
    (∀ rec, makeSignal (some 95) ⟨"X", 100, 105, 98, 104⟩ = some rec →
      rec.signal ≠ "BUY" ∧ rec.signal ≠ "SELL") ∧
    generateOptionSignals (fun _ => some 95) [⟨"X", 100, 105, 98, 104⟩] = [] ∧
    (∀ orow, get_opening_range "X" [⟨556, 100, 105, 98, 104⟩] = some orow →
      orow.low ≤ orow.close ∧ orow.close ≤ orow.high) :=
  pipeline_never_emits (some 95) ⟨"X", 100, 105, 98, 104⟩ (fun _ => some 95)
    [⟨"X", 100, 105, 98, 104⟩] "X" [⟨556, 100, 105, 98, 104⟩]
    (by norm_num)
    (by intro r hr; rw [List.mem_singleton.mp hr]; norm_num)
    (by intro b hb; rw [List.mem_singleton.mp hb]; norm_num)

/-- **C9.** When the previous session's close is unavailable
(`prev_day_close` yields `None`) `make_signal` returns `None`; the guard
`if not prev_close` also maps a fetched `0.0` to `None` (so the division
by `prev_close` is unreachable); and every trade in the downstream signal
list comes from a symbol whose fetch succeeded, so no entry exists for a
symbol whose fetch returned `None`. -/
theorem make_signal_missing_prev_close (row : OhlcRow)
    (fetch : String → Option ℚ) (rows : List OhlcRow) (t : EmittedTrade)
    (ht : t ∈ generateOptionSignals fetch rows) :
    makeSignal none row = none ∧ makeSignal (some 0) row = none ∧
    fetch t.symbol ≠ none := by
  refine ⟨rfl, by simp [makeSignal], ?_⟩
  rcases List.mem_filterMap.mp ht with ⟨r, hr, hfr⟩
  cases hfetch : fetch r.symbol with
  | none =>
    rw [hfetch] at hfr
    simp [makeSignal] at hfr
  | some q =>
    rw [hfetch] at hfr
    split at hfr
    · exact absurd hfr (by simp)
    · rename_i sig hms
      split at hfr
      · simp only [Option.some.injEq] at hfr
        have hts : t.symbol = sig.symbol := by
          rw [← hfr]
          simp [getOptionTrade]
        rw [hts, makeSignal_symbol (some q) r sig hms, hfetch]
        simp
      · exact absurd hfr (by simp)

/-- Witness for C9: with a fetch oracle answering 95 for every symbol, the
one-row batch on the breakout row `{100,105,98,110}` emits exactly the
corresponding CALL trade, whose symbol's fetch is not `None`; and
`make_signal` yields `None` both for a missing and for a zero previous
close. -/
theorem make_signal_missing_prev_close_witness :
    makeSignal none ⟨"X", 100, 105, 98, 110⟩ = none ∧
    makeSignal (some 0) ⟨"X", 100, 105, 98, 110⟩ = none ∧
    (fun _ => some (95 : ℚ))
      (⟨"X", "BUY", 110, (getOptionTrade "X" "BUY" 110).suggested_action,
        round2 (((110 : ℚ) - 95) / 95 * 100), 95⟩ : EmittedTrade).symbol ≠ none :=
  make_signal_missing_prev_close ⟨"X", 100, 105, 98, 110⟩ (fun _ => some 95)
    [⟨"X", 100, 105, 98, 110⟩]
    ⟨"X", "BUY", 110, (getOptionTrade "X" "BUY" 110).suggested_action,
      round2 (((110 : ℚ) - 95) / 95 * 100), 95⟩
    (by
      have h1 : makeSignal (some 95) ⟨"X", 100, 105, 98, 110⟩ =
          some ⟨"X", 100, 105, 98, 110, 95, round2 (((110 : ℚ) - 95) / 95 * 100), "BUY"⟩ := by
        norm_num [makeSignal]
      unfold generateOptionSignals
      simp [h1]
      exact ⟨rfl, rfl, rfl⟩)

/-- **C7.** The opening-range builder, restricted to bars in
`[09:15, 09:30)`, returns the first in-window bar's open, the maximum of
in-window highs, the minimum of in-window lows and the last in-window
bar's close (with `ORH`/`ORL` duplicating high/low); and when no bar is
in the window it returns `None` rather than a row built from
out-of-window bars. -/
theorem get_opening_range_window_spec (symbol : String) (bars : List MinBar) :
    (bars.filter inWindow = [] → get_opening_range symbol bars = none) ∧
    (∀ b bs, bars.filter inWindow = b :: bs →
      ∃ orow, get_opening_range symbol bars = some orow ∧
        orow.«open» = b.«open» ∧
        (∀ x ∈ b :: bs, x.high ≤ orow.high) ∧
        orow.high ∈ (b :: bs).map MinBar.high ∧
        (∀ x ∈ b :: bs, orow.low ≤ x.low) ∧
        orow.low ∈ (b :: bs).map MinBar.low ∧
        orow.close = ((b :: bs).getLast (List.cons_ne_nil b bs)).close ∧
        orow.ORH = orow.high ∧ orow.ORL = orow.low) := by
  constructor
  · exact get_opening_range_nil symbol bars
  · intro b bs hw
    refine ⟨_, get_opening_range_cons symbol bars b bs hw, rfl, ?_, ?_, ?_, ?_,
      rfl, rfl, rfl⟩
    · intro x hx
      rcases List.mem_cons.mp hx with h | h
      · rw [h]
        exact le_listMaxFrom_self (bs.map MinBar.high) b.high
      · exact mem_le_listMaxFrom (bs.map MinBar.high) b.high _
          (List.mem_map_of_mem MinBar.high h)
    · rcases listMaxFrom_eq_or_mem (bs.map MinBar.high) b.high with h | h
      · rw [List.map_cons, h]
        exact List.mem_cons_self _ _
      · rw [List.map_cons]
        exact List.mem_cons_of_mem _ h
    · intro x hx
      rcases List.mem_cons.mp hx with h | h
      · rw [h]
        exact listMinFrom_le_self (bs.map MinBar.low) b.low
      · exact listMinFrom_le_mem (bs.map MinBar.low) b.low _
          (List.mem_map_of_mem MinBar.low h)
    · rcases listMinFrom_eq_or_mem (bs.map MinBar.low) b.low with h | h
      · rw [List.map_cons, h]
        exact List.mem_cons_self _ _
      · rw [List.map_cons]
        exact List.mem_cons_of_mem _ h

/-- Witness for C7: a 10:00 bar (time 600) yields no opening range, while
a two-bar window (9:16 and 9:17) yields the characterized row. -/
theorem get_opening_range_window_spec_witness :
    get_opening_range "X" [⟨600, 1, 2, 0, 1⟩] = none ∧
    (∃ orow, get_opening_range "X"
        [⟨556, 100, 106, 97, 104⟩, ⟨557, 101, 105, 98, 103⟩] = some orow ∧
      orow.«open» = (⟨556, 100, 106, 97, 104⟩ : MinBar).«open» ∧
      (∀ x ∈ [(⟨556, 100, 106, 97, 104⟩ : MinBar), ⟨557, 101, 105, 98, 103⟩],
        x.high ≤ orow.high) ∧
      orow.high ∈ [(⟨556, 100, 106, 97, 104⟩ : MinBar),
        ⟨557, 101, 105, 98, 103⟩].map MinBar.high ∧
      (∀ x ∈ [(⟨556, 100, 106, 97, 104⟩ : MinBar), ⟨557, 101, 105, 98, 103⟩],
        orow.low ≤ x.low) ∧
      orow.low ∈ [(⟨556, 100, 106, 97, 104⟩ : MinBar),
        ⟨557, 101, 105, 98, 103⟩].map MinBar.low ∧
      orow.close = ([(⟨556, 100, 106, 97, 104⟩ : MinBar),
        ⟨557, 101, 105, 98, 103⟩].getLast
          (List.cons_ne_nil (⟨556, 100, 106, 97, 104⟩ : MinBar)
            [(⟨557, 101, 105, 98, 103⟩ : MinBar)])).close ∧
      orow.ORH = orow.high ∧ orow.ORL = orow.low) :=
  ⟨(get_opening_range_window_spec "X" [⟨600, 1, 2, 0, 1⟩]).1 rfl,
   (get_opening_range_window_spec "X"
       [⟨556, 100, 106, 97, 104⟩, ⟨557, 101, 105, 98, 103⟩]).2
     ⟨556, 100, 106, 97, 104⟩ [⟨557, 101, 105, 98, 103⟩] rfl⟩

lemma countKey_append (today sym dir : String) (l₁ l₂ : List SentEntry) :
    countKey today sym dir (l₁ ++ l₂) =
      countKey today sym dir l₁ + countKey today sym dir l₂ :=
  List.countP_append _ _ _

lemma countKey_map_toSentEntry (today t sym dir : String) (sigs : List Sig) :
    countKey today sym dir (sigs.map (toSentEntry today t)) =
      sigs.countP (candMatches sym dir) := by
  unfold countKey
  rw [List.countP_map]
  have hfun : ((fun e : SentEntry =>
      decide (e.date = today ∧ e.symbol = sym ∧ e.direction = dir)) ∘
        toSentEntry today t) = candMatches sym dir := by
    funext s
    simp [toSentEntry, candMatches, Function.comp]
  rw [hfun]

lemma load_sent_log_post_countKey (today sym dir : String)
    (log : List SentEntry) (h : countKey today sym dir log = 0) :
    countKey today sym dir (load_sent_log today log).2 = 0 := by
  by_cases h1 : log = []
  · simp [load_sent_log, h1, countKey]
  · by_cases h2 : log.all (fun e => e.date != today)
    · simp [load_sent_log, h1, h2, countKey]
    · simpa [load_sent_log, h1, h2] using h

/-- **C2.** If the first cycle of a day records an entry with key
`(today, sym, dir)` in the sent log (and the log held no such entry
before, and the first batch carried at most one candidate with that key),
then the second cycle on the same day filters every same-key candidate
out of its batch, appends nothing for that key, and across the two cycles
the log holds at most one entry with that key.  (`sym`/`dir` are the
recorded, already `.strip().upper()`-normalized strings.) -/
theorem run_cycle_dedup_across_cycles (today t₁ t₂ sym dir : String)
    (log₀ : List SentEntry) (cands₁ cands₂ : List Sig)
    (htoday : stripStr today = today)
    (hsym : stripUpper sym = sym) (hdir : stripUpper dir = dir)
    (hrec : ∃ e ∈ run_cycle today t₁ log₀ cands₁,
        e.date = today ∧ e.symbol = sym ∧ e.direction = dir)
    (hlog₀ : countKey today sym dir log₀ = 0)
    (hcands₁ : cands₁.countP (candMatches sym dir) ≤ 1) :
    (filter_already_sent today cands₂
        (load_sent_log today (run_cycle today t₁ log₀ cands₁)).1).countP
      (candMatches sym dir) = 0 ∧
    countKey today sym dir
        (run_cycle today t₂ (run_cycle today t₁ log₀ cands₁) cands₂) =
      countKey today sym dir (run_cycle today t₁ log₀ cands₁) ∧
    countKey today sym dir
        (run_cycle today t₂ (run_cycle today t₁ log₀ cands₁) cands₂) ≤ 1 := by
  set L1 := run_cycle today t₁ log₀ cands₁ with hL1
  obtain ⟨e, heL1, hedate, hesym, hedir⟩ := hrec
  have hne : L1 ≠ [] := List.ne_nil_of_mem heL1
  have hallf : L1.all (fun x => x.date != today) = false := by
    apply Bool.eq_false_iff.mpr
    intro hall
    have hx := List.all_eq_true.mp hall e heL1
    rw [hedate] at hx
    simp at hx
  have hload : load_sent_log today L1 = (L1.map loadedKey, L1) := by
    simp [load_sent_log, hne, hallf]
  have hkmem : (today, sym, dir) ∈ (load_sent_log today L1).1 := by
    rw [hload]
    refine List.mem_map.mpr ⟨e, heL1, ?_⟩
    simp [loadedKey, hedate, hesym, hedir, htoday, hsym, hdir]
  have hA : (filter_already_sent today cands₂
      (load_sent_log today L1).1).countP (candMatches sym dir) = 0 := by
    rw [List.countP_eq_zero]
    intro s hs hmatch
    have hnotin : candKey today s ∉ (load_sent_log today L1).1 := by
      have hd := (List.mem_filter.mp hs).2
      simpa using hd
    have hm := of_decide_eq_true hmatch
    apply hnotin
    have hkey : candKey today s = (today, sym, dir) := by
      simp [candKey, hm.1, hm.2]
    rw [hkey]
    exact hkmem
  have hrc2 : run_cycle today t₂ L1 cands₂ =
      if filter_already_sent today cands₂ (load_sent_log today L1).1 = []
      then L1
      else L1 ++ (filter_already_sent today cands₂
        (load_sent_log today L1).1).map (toSentEntry today t₂) := by
    rw [run_cycle, append_sent_log]
    rw [hload]
  have hB : countKey today sym dir (run_cycle today t₂ L1 cands₂) =
      countKey today sym dir L1 := by
    rw [hrc2]
    by_cases hE : filter_already_sent today cands₂ (load_sent_log today L1).1 = []
    · rw [if_pos hE]
    · rw [if_neg hE, countKey_append, countKey_map_toSentEntry, hA]
      exact Nat.add_zero _
  have hC1 : countKey today sym dir L1 ≤ 1 := by
    rw [hL1, run_cycle, append_sent_log]
    by_cases hE : filter_already_sent today cands₁ (load_sent_log today log₀).1 = []
    · rw [if_pos hE]
      rw [load_sent_log_post_countKey today sym dir log₀ hlog₀]
      exact Nat.zero_le 1
    · rw [if_neg hE, countKey_append, countKey_map_toSentEntry,
        load_sent_log_post_countKey today sym dir log₀ hlog₀]
      have hsub : (filter_already_sent today cands₁
          (load_sent_log today log₀).1).countP (candMatches sym dir) ≤
          cands₁.countP (candMatches sym dir) :=
        List.Sublist.countP_le _ (List.filter_sublist _)
      omega
  exact ⟨hA, hB, by rw [hB]; exact hC1⟩

/-- Witness for C2: starting from an empty log, cycle 1 sends and records
`(2026-10-12, TCS, BUY)`; cycle 2's identical candidate is filtered out,
nothing more is appended for that key, and the log holds exactly one
entry for it. -/
theorem run_cycle_dedup_across_cycles_witness :
    (filter_already_sent "2026-10-12" [⟨"TCS", some "BUY", none⟩]
        (load_sent_log "2026-10-12"
          (run_cycle "2026-10-12" "09:35:00" [] [⟨"TCS", some "BUY", none⟩])).1).countP
      (candMatches "TCS" "BUY") = 0 ∧
    countKey "2026-10-12" "TCS" "BUY"
        (run_cycle "2026-10-12" "09:40:00"
          (run_cycle "2026-10-12" "09:35:00" [] [⟨"TCS", some "BUY", none⟩])
          [⟨"TCS", some "BUY", none⟩]) =
      countKey "2026-10-12" "TCS" "BUY"
        (run_cycle "2026-10-12" "09:35:00" [] [⟨"TCS", some "BUY", none⟩]) ∧
    countKey "2026-10-12" "TCS" "BUY"
        (run_cycle "2026-10-12" "09:40:00"
          (run_cycle "2026-10-12" "09:35:00" [] [⟨"TCS", some "BUY", none⟩])
          [⟨"TCS", some "BUY", none⟩]) ≤ 1 :=
  run_cycle_dedup_across_cycles "2026-10-12" "09:35:00" "09:40:00" "TCS" "BUY"
    [] [⟨"TCS", some "BUY", none⟩] [⟨"TCS", some "BUY", none⟩]
    (by decide) (by decide) (by decide) (by decide) (by decide) (by decide)
